import Mathlib

/-!
Shallow embedding of `src/generate_playlist.py` (YouTube HLS playlist
generator) and verification of its specification claims.

Python strings are modelled as Lean `String`; the Python string methods
used by the script (`str.strip`, `str.split`, `str.startswith`, the `in`
substring test) are re-implemented over the character list `String.data`
so that every definition evaluates inside the kernel.

The network side of `yt_dlp.YoutubeDL.extract_info` is modelled as an
oracle `String → Option Info`: `none` models a raised
`DownloadError`/exception (caught by the script, which returns `None`),
`some info` models the returned info dictionary, of which the script
reads only the `formats` list (each with `protocol`, `url`, `tbr`) and
the top level `url` field.
-/

/-- Python whitespace characters stripped by `str.strip()` (ASCII part). -/
def isWS (c : Char) : Bool :=
  c = ' ' || c = '\t' || c = '\n' || c = '\r' || c = '\x0b' || c = '\x0c'

/-- Drop leading whitespace from a character list. -/
def dropWS : List Char → List Char
  | [] => []
  | c :: cs => if isWS c then dropWS cs else c :: cs

/-- Strip whitespace at both ends of a character list. -/
def trimL (l : List Char) : List Char :=
  ((dropWS ((dropWS l).reverse)).reverse)

/-- Model of Python `s.strip()`. -/
def pyStrip (s : String) : String := ⟨trimL s.data⟩

/-- Split a character list on a separator character; yields one piece per
separator plus one, exactly like Python `str.split(sep)`. -/
def splitCharL (sep : Char) : List Char → List (List Char)
  | [] => [[]]
  | c :: cs =>
    match splitCharL sep cs with
    | [] => [[c]]
    | h :: t => if c = sep then [] :: h :: t else (c :: h) :: t

/-- Model of Python `s.split(sep)` for a one-character separator. -/
def pySplit (s : String) (sep : Char) : List String :=
  (splitCharL sep s.data).map (fun l => ⟨l⟩)

/-- Leading-match test on character lists. -/
def startsWithL : List Char → List Char → Bool
  | _, [] => true
  | [], _ :: _ => false
  | c :: cs, p :: ps => c = p && startsWithL cs ps

/-- Model of Python `s.startswith(pat)`. -/
def pyStartsWith (s pat : String) : Bool := startsWithL s.data pat.data

/-- Substring test on character lists (`pat` occurs inside the list). -/
def hasSubL : List Char → List Char → Bool
  | [], pat => pat.isEmpty
  | c :: cs, pat => startsWithL (c :: cs) pat || hasSubL cs pat

/-- Model of Python `pat in s` (substring containment). -/
def pyContains (s pat : String) : Bool := hasSubL s.data pat.data

/-- Embedding of `normalize_to_watch_url` (src/generate_playlist.py lines
10-28): strips the token; empty → `none` (Python `None`); `@handle` →
live page URL; a token starting with `http://` or `https://` is returned
as is (after the strip); anything else is treated as a bare video id. -/
def normalize_to_watch_url (token : String) : Option String :=
  let t := pyStrip token
  if t.data.isEmpty then none
  else if pyStartsWith t "@" then
    some ("https://www.youtube.com/" ++ t ++ "/live")
  else if pyStartsWith t "http://" || pyStartsWith t "https://" then
    some t
  else
    some ("https://www.youtube.com/watch?v=" ++ t)

/-- One entry of the `formats` list of a yt-dlp info dictionary, reduced
to the three fields read by the script.  `none` models both an absent
key and a JSON `null` value; `tbr` (total bitrate) is modelled as `Nat`. -/
structure FormatInfo where
  protocol : Option String
  url : Option String
  tbr : Option Nat
  deriving DecidableEq

/-- A yt-dlp info dictionary, reduced to the two fields read by the
script: the `formats` list (absent/`null` modelled by `[]`, matching
`info.get("formats", []) or []`) and the top level `url` field. -/
structure Info where
  formats : List FormatInfo
  url : Option String
  deriving DecidableEq

/-- Embedding of the candidate-collection loop of `extract_hls_url`
(lines 58-66): formats with a missing or empty `url` are dropped; a
format qualifies when `"m3u8"` occurs in its protocol (missing protocol
read as `""`) or `".m3u8"` occurs in its URL; each candidate is the pair
(tbr with missing read as 0, url). -/
def hls_candidates (formats : List FormatInfo) : List (Nat × String) :=
  formats.filterMap fun f =>
    match f.url with
    | none => none
    | some u =>
      if u.data.isEmpty then none
      else if pyContains (f.protocol.getD "") "m3u8" || pyContains u ".m3u8" then
        some (f.tbr.getD 0, u)
      else none

/-- The sort key used at line 69: ascending by bitrate. -/
def tbrLE (a b : Nat × String) : Prop := a.1 ≤ b.1

instance : DecidableRel tbrLE := fun a b => Nat.decLe a.1 b.1

instance : IsTotal (Nat × String) tbrLE := ⟨fun a b => Nat.le_total a.1 b.1⟩

instance : IsTrans (Nat × String) tbrLE := ⟨fun _ _ _ h1 h2 => Nat.le_trans h1 h2⟩

/-- Embedding of `extract_hls_url` (lines 31-78) with the network step
abstracted as the oracle `ei`.  `ei url = none` models an extraction
exception, caught and turned into `None`.  Otherwise, if the candidate
list is nonempty the script sorts it ascending by bitrate with a stable
sort (modelled by `List.insertionSort`, stable like Python's sort) and
returns the URL of the last element; if it is empty it falls back to the
top level `url` field when that contains `".m3u8"`, else returns `None`. -/
def extract_hls_url (ei : String → Option Info) (url : String) : Option String :=
  match ei url with
  | none => none
  | some info =>
    match (List.insertionSort tbrLE (hls_candidates info.formats)).getLast? with
    | some best => some best.2
    | none =>
      match info.url with
      | some fb => if pyContains fb ".m3u8" then some fb else none
      | none => none

/-- Observable side effects of processing one input line, mirroring the
`print` reports and the network call of the main loop: which skip was
reported, whether `extract_hls_url` was invoked (a network access), and
the final per-entry report. -/
inductive Event where
  | malformedSkip (line : String)
  | duplicateSkip (token : String)
  | unresolvableSkip (token : String)
  | fetchAttempt (url : String)
  | addedOk (name : String)
  | offlineMark (name : String)
  deriving DecidableEq

/-- Classification of one raw input line by lines 97-106 of the main
loop: stripped-blank or `#`-comment lines are silently skipped; a line
not splitting on `|` into exactly two fields is malformed; otherwise the
two stripped fields are the entry's name and token. -/
inductive ParsedLine where
  | blankOrComment
  | malformed (line : String)
  | entry (name token : String)
  deriving DecidableEq

/-- Embedding of the line classification of the main loop (lines 97-106). -/
def parseLine (raw : String) : ParsedLine :=
  let line := pyStrip raw
  if line.data.isEmpty || pyStartsWith line "#" then .blankOrComment
  else
    match (pySplit line '|').map pyStrip with
    | [name, token] => .entry name token
    | _ => .malformed line

/-- The mutable state of `generate_m3u8_playlist`: the output line
buffer `lines_out`, the counters `total` and `added`, the dedup set
`seen` (modelled as the list of inserted tokens), plus the `events`
trace instrumenting reports and network accesses. -/
@[ext]
structure RunState where
  lines_out : List String
  total : Nat
  added : Nat
  seen : List String
  events : List Event
  deriving DecidableEq

/-- Embedding of one iteration of the main loop of
`generate_m3u8_playlist` (lines 96-128), with the network abstracted by
the oracle `ei` passed through to `extract_hls_url`. -/
def processLine (ei : String → Option Info) (st : RunState) (raw : String) : RunState :=
  match parseLine raw with
  | .blankOrComment => st
  | .malformed line => { st with events := st.events ++ [Event.malformedSkip line] }
  | .entry name token =>
    if token ∈ st.seen then
      { st with events := st.events ++ [Event.duplicateSkip token] }
    else
      let st1 := { st with seen := token :: st.seen, total := st.total + 1 }
      match normalize_to_watch_url token with
      | none => { st1 with events := st1.events ++ [Event.unresolvableSkip token] }
      | some url =>
        let st2 := { st1 with events := st1.events ++ [Event.fetchAttempt url] }
        match extract_hls_url ei url with
        | some hls =>
          { st2 with
            lines_out := st2.lines_out ++
              ["#EXTINF:-1," ++ name, "#EXT-X-PROGRAM-ID:1", hls],
            added := st2.added + 1,
            events := st2.events ++ [Event.addedOk name] }
        | none =>
          { st2 with
            lines_out := st2.lines_out ++ ["#EXTINF:-1," ++ name ++ " (offline)"],
            events := st2.events ++ [Event.offlineMark name] }

/-- The fixed three-line header built at line 89, parametrised by the
formatted UTC timestamp. -/
def headerLines (now : String) : List String :=
  ["#EXTM3U", "# Generated on " ++ now, "#EXT-X-VERSION:3"]

/-- The state of `generate_m3u8_playlist` just before the input loop. -/
def initState (now : String) : RunState :=
  { lines_out := headerLines now, total := 0, added := 0, seen := [], events := [] }

/-- Embedding of `generate_m3u8_playlist` (lines 83-133) on an input
file that exists: the input is its list of lines, `now` the formatted
timestamp, `ei` the network oracle; the result is the final state, whose
`lines_out` is what gets written to the output file. -/
def generate_m3u8_playlist (ei : String → Option Info) (now : String)
    (input : List String) : RunState :=
  input.foldl (processLine ei) (initState now)

/-- `"\n".join(lines)`. -/
def joinNL : List String → String
  | [] => ""
  | [l] => l
  | l :: l2 :: ls => l ++ "\n" ++ joinNL (l2 :: ls)

/-- The text written to the output file at lines 130-131:
`"\n".join(lines_out) + "\n"`. -/
def output_text (st : RunState) : String := joinNL st.lines_out ++ "\n"

/-- Number of playable blocks in an output line list, counted by their
program-identifier line. -/
def countPlayable : List String → Nat
  | [] => 0
  | l :: ls => (if l = "#EXT-X-PROGRAM-ID:1" then 1 else 0) + countPlayable ls

/-- Number of network accesses recorded in an event trace: one per
invocation of `extract_hls_url`, i.e. one per entry that passed the
malformed, duplicate and normalization checks. -/
def countFetches : List Event → Nat
  | [] => 0
  | e :: es =>
    (match e with
     | Event.fetchAttempt _ => 1
     | _ => 0) + countFetches es


/-! ### Characterisation of the loop as state-independent deltas -/

/-- The contribution of a processed line to the run state: appended
output lines, counter increments, newly inserted tokens, appended
events. -/
@[ext]
structure Delta where
  lines : List String
  dTotal : Nat
  dAdded : Nat
  dSeen : List String
  events : List Event
  deriving DecidableEq

/-- Apply a contribution to a state. -/
def applyDelta (st : RunState) (d : Delta) : RunState :=
  { lines_out := st.lines_out ++ d.lines
    total := st.total + d.dTotal
    added := st.added + d.dAdded
    seen := d.dSeen ++ st.seen
    events := st.events ++ d.events }

/-- Sequential composition of two contributions. -/
def seqDelta (d1 d2 : Delta) : Delta :=
  { lines := d1.lines ++ d2.lines
    dTotal := d1.dTotal + d2.dTotal
    dAdded := d1.dAdded + d2.dAdded
    dSeen := d2.dSeen ++ d1.dSeen
    events := d1.events ++ d2.events }

/-- The contribution of one input line, as a function of the tokens seen
so far only. -/
def lineDelta (ei : String → Option Info) (seen : List String) (raw : String) : Delta :=
  match parseLine raw with
  | .blankOrComment => ⟨[], 0, 0, [], []⟩
  | .malformed line => ⟨[], 0, 0, [], [Event.malformedSkip line]⟩
  | .entry name token =>
    if token ∈ seen then ⟨[], 0, 0, [], [Event.duplicateSkip token]⟩
    else
      match normalize_to_watch_url token with
      | none => ⟨[], 1, 0, [token], [Event.unresolvableSkip token]⟩
      | some url =>
        match extract_hls_url ei url with
        | some hls =>
          ⟨["#EXTINF:-1," ++ name, "#EXT-X-PROGRAM-ID:1", hls], 1, 1, [token],
           [Event.fetchAttempt url, Event.addedOk name]⟩
        | none =>
          ⟨["#EXTINF:-1," ++ name ++ " (offline)"], 1, 0, [token],
           [Event.fetchAttempt url, Event.offlineMark name]⟩

/-- The cumulative contribution of an input line list. -/
def runDelta (ei : String → Option Info) (seen : List String) : List String → Delta
  | [] => ⟨[], 0, 0, [], []⟩
  | raw :: rest =>
    let d := lineDelta ei seen raw
    seqDelta d (runDelta ei (d.dSeen ++ seen) rest)

/-! ### Sanity evaluations of the embedding on concrete inputs -/

example : pyStrip "  Ch A  " = "Ch A" := by decide
example : pySplit "Name | " '|' = ["Name ", " "] := by decide
example : normalize_to_watch_url "@h" = some "https://www.youtube.com/@h/live" := by decide
example : normalize_to_watch_url "abc" = some "https://www.youtube.com/watch?v=abc" := by decide
example : normalize_to_watch_url "  " = none := by decide
example :
    extract_hls_url (fun _ => some ⟨[], some "http://x.m3u8"⟩) "u" = some "http://x.m3u8" := by
  decide
example :
    extract_hls_url
      (fun _ => some ⟨[⟨some "m3u8_native", some "http://a", some 5⟩,
                      ⟨some "https", some "http://b.m3u8", some 9⟩], none⟩) "u"
      = some "http://b.m3u8" := by
  decide
example : parseLine "BadLineNoSeparator" = .malformed "BadLineNoSeparator" := by decide
example : parseLine "  " = .blankOrComment := by decide
example : parseLine "# c" = .blankOrComment := by decide
example : parseLine "Ch A | abc" = .entry "Ch A" "abc" := by decide
example :
    (generate_m3u8_playlist (fun _ => none) "T" ["Ch A | abc"]).lines_out
      = ["#EXTM3U", "# Generated on T", "#EXT-X-VERSION:3", "#EXTINF:-1,Ch A (offline)"] := by
  decide
example :
    (generate_m3u8_playlist (fun _ => some ⟨[], some "http://x.m3u8"⟩) "T"
        ["Ch | abc", "Ch2 | abc"])
      = { lines_out := ["#EXTM3U", "# Generated on T", "#EXT-X-VERSION:3",
                        "#EXTINF:-1,Ch", "#EXT-X-PROGRAM-ID:1", "http://x.m3u8"],
          total := 1, added := 1, seen := ["abc"],
          events := [.fetchAttempt "https://www.youtube.com/watch?v=abc", .addedOk "Ch",
                     .duplicateSkip "abc"] } := by
  decide
example : output_text ⟨["a", "b"], 0, 0, [], []⟩ = "a\nb\n" := by decide

theorem applyDelta_empty (st : RunState) : applyDelta st ⟨[], 0, 0, [], []⟩ = st := by
  ext1 <;> simp [applyDelta]

theorem applyDelta_seq (st : RunState) (d1 d2 : Delta) :
    applyDelta (applyDelta st d1) d2 = applyDelta st (seqDelta d1 d2) := by
  ext1 <;> simp [applyDelta, seqDelta, Nat.add_assoc]

theorem seen_applyDelta (st : RunState) (d : Delta) :
    (applyDelta st d).seen = d.dSeen ++ st.seen := rfl

/-- One loop iteration is exactly the application of its line's delta. -/
theorem processLine_char (ei : String → Option Info) (st : RunState) (raw : String) :
    processLine ei st raw = applyDelta st (lineDelta ei st.seen raw) := by
  unfold processLine lineDelta
  rcases hp : parseLine raw with _ | line | ⟨name, token⟩
  · simp [applyDelta_empty]
  · ext1 <;> simp [applyDelta]
  · by_cases hs : token ∈ st.seen
    · simp only [hs, if_true]
      ext1 <;> simp [applyDelta]
    · simp only [hs, if_false]
      rcases hn : normalize_to_watch_url token with _ | url
      · ext1 <;> simp [applyDelta]
      · rcases hx : extract_hls_url ei url with _ | hls
        · ext1 <;> simp [applyDelta, hx]
        · ext1 <;> simp [applyDelta, hx]

/-- The whole loop is exactly the application of the cumulative delta. -/
theorem foldl_char (ei : String → Option Info) (input : List String) (st : RunState) :
    List.foldl (processLine ei) st input = applyDelta st (runDelta ei st.seen input) := by
  induction input generalizing st with
  | nil => simp [runDelta, applyDelta_empty]
  | cons raw rest ih =>
    simp only [List.foldl_cons, runDelta]
    rw [ih, processLine_char, seen_applyDelta, applyDelta_seq]

theorem generate_char (ei : String → Option Info) (now : String) (input : List String) :
    generate_m3u8_playlist ei now input = applyDelta (initState now) (runDelta ei [] input) :=
  foldl_char ei input (initState now)

/-- C1: for every network oracle, timestamp and input line list, the
produced output starts with exactly the three fixed header lines
(playlist marker, UTC generation-timestamp comment, version marker) —
even when zero entries resolve — and the written text ends with a
trailing newline. -/
theorem C1_header_and_trailing_newline (ei : String → Option Info) (now : String)
    (input : List String) :
    (∃ tail, (generate_m3u8_playlist ei now input).lines_out
        = ["#EXTM3U", "# Generated on " ++ now, "#EXT-X-VERSION:3"] ++ tail) ∧
    (∃ body, output_text (generate_m3u8_playlist ei now input) = body ++ "\n") := by
  refine ⟨⟨(runDelta ei [] input).lines, ?_⟩,
          ⟨joinNL (generate_m3u8_playlist ei now input).lines_out, rfl⟩⟩
  rw [generate_char]
  rfl

/-- C2: a data line whose token was already seen is skipped as a
duplicate: the state is unchanged except for the duplicate-skip report —
in particular no network access (no fetch event) happens and no output
line is produced — regardless of the line's name; and after processing
any data line its token is in the seen set, so every later occurrence of
that token is such a duplicate. -/
theorem C2_duplicate_token_skipped (ei : String → Option Info) (st : RunState)
    (raw name token : String) (hp : parseLine raw = ParsedLine.entry name token) :
    (token ∈ st.seen →
        processLine ei st raw
          = { st with events := st.events ++ [Event.duplicateSkip token] }) ∧
    token ∈ (processLine ei st raw).seen := by
  constructor
  · intro hs
    unfold processLine
    rw [hp]
    simp [hs]
  · rw [processLine_char, seen_applyDelta]
    unfold lineDelta
    rw [hp]
    by_cases hs : token ∈ st.seen
    · simp [hs]
    · simp only [hs, if_false]
      rcases hn : normalize_to_watch_url token with _ | url <;> simp only [hn]
      · simp
      · rcases hx : extract_hls_url ei url with _ | hls <;> simp only [hx] <;> simp

theorem C2_duplicate_token_skipped_witness :
    processLine (fun _ => none) ⟨[], 0, 0, ["abc"], []⟩ "Ch B | abc"
        = ⟨[], 0, 0, ["abc"], [Event.duplicateSkip "abc"]⟩ ∧
    "abc" ∈ (processLine (fun _ => none) ⟨[], 0, 0, ["abc"], []⟩ "Ch B | abc").seen := by
  have h := C2_duplicate_token_skipped (fun _ => none) ⟨[], 0, 0, ["abc"], []⟩
    "Ch B | abc" "Ch B" "abc" (by decide)
  exact ⟨h.1 (by decide), h.2⟩

/-- C10: a well-formed, non-duplicate entry whose token normalizes but
whose extraction returns no HLS URL contributes exactly one line,
`#EXTINF:-1,<name> (offline)`, with no URL line and no change to the
`added` counter; this rendering is unconditional in the code. -/
theorem C10_offline_marker_line (ei : String → Option Info) (st : RunState)
    (raw name token url : String)
    (hp : parseLine raw = ParsedLine.entry name token) (hs : token ∉ st.seen)
    (hn : normalize_to_watch_url token = some url)
    (hx : extract_hls_url ei url = none) :
    processLine ei st raw
      = { st with
          lines_out := st.lines_out ++ ["#EXTINF:-1," ++ name ++ " (offline)"],
          total := st.total + 1, seen := token :: st.seen,
          events := st.events ++ [Event.fetchAttempt url, Event.offlineMark name] } := by
  rw [processLine_char]
  have hd : lineDelta ei st.seen raw
      = ⟨["#EXTINF:-1," ++ name ++ " (offline)"], 1, 0, [token],
         [Event.fetchAttempt url, Event.offlineMark name]⟩ := by
    unfold lineDelta
    rw [hp]
    simp [hs, hn, hx]
  rw [hd]
  ext1 <;> simp [applyDelta]

theorem C10_offline_marker_line_witness :
    processLine (fun _ => none) (initState "T") "Ch A | abc"
      = { initState "T" with
          lines_out := (initState "T").lines_out ++ ["#EXTINF:-1," ++ "Ch A" ++ " (offline)"],
          total := (initState "T").total + 1, seen := "abc" :: (initState "T").seen,
          events := (initState "T").events ++
            [Event.fetchAttempt "https://www.youtube.com/watch?v=abc",
             Event.offlineMark "Ch A"] } :=
  C10_offline_marker_line (fun _ => none) (initState "T") "Ch A | abc" "Ch A" "abc"
    "https://www.youtube.com/watch?v=abc" (by decide) (by decide) (by decide) (by decide)

/-- C7 counterexample: for a resolved entry the code emits the info
line, the program-identifier line and the URL line but no blank
separator line — the output of a one-entry resolving run contains no
empty line at all, refuting the claimed blank separator. -/
theorem C7_counterexample :
    (generate_m3u8_playlist (fun _ => some ⟨[], some "http://x.m3u8"⟩) "T"
        ["Ch | abc"]).lines_out
      = ["#EXTM3U", "# Generated on T", "#EXT-X-VERSION:3",
         "#EXTINF:-1,Ch", "#EXT-X-PROGRAM-ID:1", "http://x.m3u8"] ∧
    "" ∉ (generate_m3u8_playlist (fun _ => some ⟨[], some "http://x.m3u8"⟩) "T"
        ["Ch | abc"]).lines_out := by
  decide

/-- C7 (amended): for each entry whose extraction returns a manifest
URL, the assembler appends, in input order, exactly the info line
`#EXTINF:-1,<name>`, the line `#EXT-X-PROGRAM-ID:1`, and the manifest
URL line — with no blank separator line. -/
theorem C7_resolved_block (ei : String → Option Info) (st : RunState)
    (raw name token url hls : String)
    (hp : parseLine raw = ParsedLine.entry name token) (hs : token ∉ st.seen)
    (hn : normalize_to_watch_url token = some url)
    (hx : extract_hls_url ei url = some hls) :
    processLine ei st raw
      = { st with
          lines_out := st.lines_out ++
            ["#EXTINF:-1," ++ name, "#EXT-X-PROGRAM-ID:1", hls],
          total := st.total + 1, added := st.added + 1, seen := token :: st.seen,
          events := st.events ++ [Event.fetchAttempt url, Event.addedOk name] } := by
  rw [processLine_char]
  have hd : lineDelta ei st.seen raw
      = ⟨["#EXTINF:-1," ++ name, "#EXT-X-PROGRAM-ID:1", hls], 1, 1, [token],
         [Event.fetchAttempt url, Event.addedOk name]⟩ := by
    unfold lineDelta
    rw [hp]
    simp [hs, hn, hx]
  rw [hd]
  ext1 <;> simp [applyDelta]

theorem C7_resolved_block_witness :
    processLine (fun _ => some ⟨[], some "http://x.m3u8"⟩) (initState "T") "Ch | abc"
      = { initState "T" with
          lines_out := (initState "T").lines_out ++
            ["#EXTINF:-1," ++ "Ch", "#EXT-X-PROGRAM-ID:1", "http://x.m3u8"],
          total := (initState "T").total + 1, added := (initState "T").added + 1,
          seen := "abc" :: (initState "T").seen,
          events := (initState "T").events ++
            [Event.fetchAttempt "https://www.youtube.com/watch?v=abc",
             Event.addedOk "Ch"] } :=
  C7_resolved_block (fun _ => some ⟨[], some "http://x.m3u8"⟩) (initState "T") "Ch | abc"
    "Ch" "abc" "https://www.youtube.com/watch?v=abc" "http://x.m3u8"
    (by decide) (by decide) (by decide) (by decide)

theorem runDelta_append (ei : String → Option Info) (seen : List String)
    (l1 l2 : List String) :
    runDelta ei seen (l1 ++ l2)
      = seqDelta (runDelta ei seen l1)
          (runDelta ei ((runDelta ei seen l1).dSeen ++ seen) l2) := by
  induction l1 generalizing seen with
  | nil =>
    simp only [List.nil_append, runDelta]
    ext1 <;> simp [seqDelta]
  | cons raw rest ih =>
    simp only [List.cons_append, runDelta, List.append_eq]
    rw [ih]
    ext1 <;> simp [seqDelta, Nat.add_assoc, List.append_assoc]

/-- C9: a malformed data line (not exactly two fields after splitting on
the separator) is skipped with a malformed-record report before any
normalization or fetch: the run over the input with the malformed line
produces the same output lines, counters and seen set as the run
without it, continues with the remaining lines, and the malformed line
contributes exactly its report event and nothing else. -/
theorem C9_malformed_line_skipped (ei : String → Option Info) (now : String)
    (pre post : List String) (raw line : String)
    (hm : parseLine raw = ParsedLine.malformed line) :
    (generate_m3u8_playlist ei now (pre ++ raw :: post)).lines_out
        = (generate_m3u8_playlist ei now (pre ++ post)).lines_out ∧
    (generate_m3u8_playlist ei now (pre ++ raw :: post)).total
        = (generate_m3u8_playlist ei now (pre ++ post)).total ∧
    (generate_m3u8_playlist ei now (pre ++ raw :: post)).added
        = (generate_m3u8_playlist ei now (pre ++ post)).added ∧
    (generate_m3u8_playlist ei now (pre ++ raw :: post)).seen
        = (generate_m3u8_playlist ei now (pre ++ post)).seen ∧
    ∃ tail,
      (generate_m3u8_playlist ei now (pre ++ raw :: post)).events
          = (generate_m3u8_playlist ei now pre).events ++ Event.malformedSkip line :: tail ∧
      (generate_m3u8_playlist ei now (pre ++ post)).events
          = (generate_m3u8_playlist ei now pre).events ++ tail := by
  have hld : ∀ seen, lineDelta ei seen raw = ⟨[], 0, 0, [], [Event.malformedSkip line]⟩ := by
    intro seen
    unfold lineDelta
    rw [hm]
  simp only [generate_char, runDelta_append, runDelta]
  simp only [hld]
  refine ⟨?_, ?_, ?_, ?_,
    ⟨(runDelta ei ((runDelta ei [] pre).dSeen ++ []) post).events, ?_, ?_⟩⟩ <;>
    simp [applyDelta, seqDelta, initState]

theorem C9_malformed_line_skipped_witness :
    (generate_m3u8_playlist (fun _ => none) "T" ([] ++ "BadLineNoSeparator" :: ["Ch | abc"])).lines_out
        = (generate_m3u8_playlist (fun _ => none) "T" ([] ++ ["Ch | abc"])).lines_out ∧
    (generate_m3u8_playlist (fun _ => none) "T" ([] ++ "BadLineNoSeparator" :: ["Ch | abc"])).total
        = (generate_m3u8_playlist (fun _ => none) "T" ([] ++ ["Ch | abc"])).total ∧
    (generate_m3u8_playlist (fun _ => none) "T" ([] ++ "BadLineNoSeparator" :: ["Ch | abc"])).added
        = (generate_m3u8_playlist (fun _ => none) "T" ([] ++ ["Ch | abc"])).added ∧
    (generate_m3u8_playlist (fun _ => none) "T" ([] ++ "BadLineNoSeparator" :: ["Ch | abc"])).seen
        = (generate_m3u8_playlist (fun _ => none) "T" ([] ++ ["Ch | abc"])).seen ∧
    ∃ tail,
      (generate_m3u8_playlist (fun _ => none) "T" ([] ++ "BadLineNoSeparator" :: ["Ch | abc"])).events
          = (generate_m3u8_playlist (fun _ => none) "T" []).events
              ++ Event.malformedSkip "BadLineNoSeparator" :: tail ∧
      (generate_m3u8_playlist (fun _ => none) "T" ([] ++ ["Ch | abc"])).events
          = (generate_m3u8_playlist (fun _ => none) "T" []).events ++ tail :=
  C9_malformed_line_skipped (fun _ => none) "T" [] ["Ch | abc"]
    "BadLineNoSeparator" "BadLineNoSeparator" (by decide)

/-- C8 counterexample: the input line `"Name | "` has an empty token,
which the normalizer rejects, so the entry is skipped as unresolvable —
yet the run reports `total = 1`, not `total = 0`: an entry skipped for
an unresolvable token IS counted in the reported total. -/
theorem C8_counterexample :
    (generate_m3u8_playlist (fun _ => none) "T" ["Name | "]).total = 1 ∧
    (generate_m3u8_playlist (fun _ => none) "T" ["Name | "]).added = 0 ∧
    (generate_m3u8_playlist (fun _ => none) "T" ["Name | "]).events
        = [Event.unresolvableSkip ""] ∧
    (generate_m3u8_playlist (fun _ => none) "T" ["Name | "]).lines_out = headerLines "T" := by
  decide

/-- C8 (amended): the reported counts are `added` (incremented exactly
when an entry's extraction returns a manifest URL) versus `total`
(incremented exactly when an entry passes the malformed-line and
duplicate checks): a malformed or duplicate entry is not counted in the
total, but an entry whose token fails normalization IS counted (the
counter is incremented before the normalization check) even though it
is skipped and contributes nothing to the output. -/
theorem C8_total_counting (ei : String → Option Info) (st : RunState) (raw : String) :
    (∀ line, parseLine raw = ParsedLine.malformed line →
        (processLine ei st raw).total = st.total ∧
        (processLine ei st raw).added = st.added) ∧
    ∀ name token, parseLine raw = ParsedLine.entry name token →
      ((token ∈ st.seen →
          (processLine ei st raw).total = st.total ∧
          (processLine ei st raw).added = st.added) ∧
       (token ∉ st.seen →
          (processLine ei st raw).total = st.total + 1 ∧
          (normalize_to_watch_url token = none →
              processLine ei st raw
                = { st with seen := token :: st.seen, total := st.total + 1,
                            events := st.events ++ [Event.unresolvableSkip token] }) ∧
          ∀ url, normalize_to_watch_url token = some url →
            ((extract_hls_url ei url = none →
                (processLine ei st raw).added = st.added) ∧
             ∀ hls, extract_hls_url ei url = some hls →
                (processLine ei st raw).added = st.added + 1))) := by
  constructor
  · intro line hm
    rw [processLine_char]
    have hd : lineDelta ei st.seen raw = ⟨[], 0, 0, [], [Event.malformedSkip line]⟩ := by
      unfold lineDelta
      rw [hm]
    rw [hd]
    exact ⟨rfl, rfl⟩
  · intro name token hp
    constructor
    · intro hs
      rw [processLine_char]
      have hd : lineDelta ei st.seen raw = ⟨[], 0, 0, [], [Event.duplicateSkip token]⟩ := by
        unfold lineDelta
        rw [hp]
        simp [hs]
      rw [hd]
      exact ⟨rfl, rfl⟩
    · intro hs
      refine ⟨?_, ?_, ?_⟩
      · rw [processLine_char]
        have hd : (lineDelta ei st.seen raw).dTotal = 1 := by
          unfold lineDelta
          rw [hp]
          simp only [hs, if_false]
          rcases hn : normalize_to_watch_url token with _ | url
          · simp [hn]
          · rcases hx : extract_hls_url ei url with _ | hls <;> simp [hn, hx]
        show st.total + (lineDelta ei st.seen raw).dTotal = st.total + 1
        rw [hd]
      · intro hn
        rw [processLine_char]
        have hd : lineDelta ei st.seen raw
            = ⟨[], 1, 0, [token], [Event.unresolvableSkip token]⟩ := by
          unfold lineDelta
          rw [hp]
          simp [hs, hn]
        rw [hd]
        ext1 <;> simp [applyDelta]
      · intro url hn
        constructor
        · intro hx
          rw [processLine_char]
          have hd : lineDelta ei st.seen raw
              = ⟨["#EXTINF:-1," ++ name ++ " (offline)"], 1, 0, [token],
                 [Event.fetchAttempt url, Event.offlineMark name]⟩ := by
            unfold lineDelta
            rw [hp]
            simp [hs, hn, hx]
          rw [hd]
          rfl
        · intro hls hx
          rw [processLine_char]
          have hd : lineDelta ei st.seen raw
              = ⟨["#EXTINF:-1," ++ name, "#EXT-X-PROGRAM-ID:1", hls], 1, 1, [token],
                 [Event.fetchAttempt url, Event.addedOk name]⟩ := by
            unfold lineDelta
            rw [hp]
            simp [hs, hn, hx]
          rw [hd]
          rfl

theorem C8_total_counting_witness :
    ((processLine (fun _ => none) (initState "T") "BadLineNoSep").total
        = (initState "T").total ∧
     (processLine (fun _ => none) (initState "T") "BadLineNoSep").added
        = (initState "T").added) ∧
    ((processLine (fun _ => none) ⟨[], 0, 0, ["x"], []⟩ "N | x").total
        = (⟨[], 0, 0, ["x"], []⟩ : RunState).total ∧
     (processLine (fun _ => none) ⟨[], 0, 0, ["x"], []⟩ "N | x").added
        = (⟨[], 0, 0, ["x"], []⟩ : RunState).added) ∧
    (processLine (fun _ => none) (initState "T") "Name | "
      = { initState "T" with
          seen := "" :: (initState "T").seen,
          total := (initState "T").total + 1,
          events := (initState "T").events ++ [Event.unresolvableSkip ""] }) ∧
    ((processLine (fun _ => none) (initState "T") "Ch | abc").total
        = (initState "T").total + 1 ∧
     (processLine (fun _ => none) (initState "T") "Ch | abc").added
        = (initState "T").added) ∧
    (processLine (fun _ => some ⟨[], some "http://x.m3u8"⟩) (initState "T") "Ch | abc").added
        = (initState "T").added + 1 :=
  ⟨(C8_total_counting (fun _ => none) (initState "T") "BadLineNoSep").1
      "BadLineNoSep" (by decide),
   ((C8_total_counting (fun _ => none) ⟨[], 0, 0, ["x"], []⟩ "N | x").2
      "N" "x" (by decide)).1 (by decide),
   (((C8_total_counting (fun _ => none) (initState "T") "Name | ").2
      "Name" "" (by decide)).2 (by decide)).2.1 (by decide),
   ⟨(((C8_total_counting (fun _ => none) (initState "T") "Ch | abc").2
       "Ch" "abc" (by decide)).2 (by decide)).1,
    ((((C8_total_counting (fun _ => none) (initState "T") "Ch | abc").2
       "Ch" "abc" (by decide)).2 (by decide)).2.2
       "https://www.youtube.com/watch?v=abc" (by decide)).1 (by decide)⟩,
   ((((C8_total_counting (fun _ => some ⟨[], some "http://x.m3u8"⟩) (initState "T")
        "Ch | abc").2 "Ch" "abc" (by decide)).2 (by decide)).2.2
        "https://www.youtube.com/watch?v=abc" (by decide)).2
        "http://x.m3u8" (by decide)⟩

theorem strAppend_assoc (a b c : String) : a ++ b ++ c = a ++ (b ++ c) := by
  apply String.ext
  simp [String.data_append]

theorem append_ne_of_take_ne (p s m : String)
    (h : m.data.take p.data.length ≠ p.data) : p ++ s ≠ m := by
  intro he
  apply h
  have h2 : p.data ++ s.data = m.data := by rw [← String.data_append, he]
  rw [← h2, List.take_left]

theorem extinf_ne_progid (s : String) :
    "#EXTINF:-1," ++ s ≠ "#EXT-X-PROGRAM-ID:1" :=
  append_ne_of_take_ne _ _ _ (by decide)

theorem genline_ne_progid (s : String) :
    "# Generated on " ++ s ≠ "#EXT-X-PROGRAM-ID:1" :=
  append_ne_of_take_ne _ _ _ (by decide)

theorem offline_ne_progid (s : String) :
    "#EXTINF:-1," ++ s ++ " (offline)" ≠ "#EXT-X-PROGRAM-ID:1" := by
  rw [strAppend_assoc]
  exact extinf_ne_progid _

theorem countPlayable_append (l1 l2 : List String) :
    countPlayable (l1 ++ l2) = countPlayable l1 + countPlayable l2 := by
  induction l1 with
  | nil => simp [countPlayable]
  | cons a t ih => simp [countPlayable, ih, Nat.add_assoc]

theorem countPlayable_lineDelta (ei : String → Option Info)
    (hne : ∀ u s, extract_hls_url ei u = some s → s ≠ "#EXT-X-PROGRAM-ID:1")
    (seen : List String) (raw : String) :
    countPlayable (lineDelta ei seen raw).lines = (lineDelta ei seen raw).dAdded := by
  unfold lineDelta
  rcases hp : parseLine raw with _ | line | ⟨name, token⟩ <;> simp only [hp]
  · rfl
  · rfl
  · by_cases hs : token ∈ seen
    · simp [hs, countPlayable]
    · simp only [hs, if_false]
      rcases hn : normalize_to_watch_url token with _ | url <;> simp only [hn]
      · rfl
      · rcases hx : extract_hls_url ei url with _ | hls <;> simp only [hx]
        · simp [countPlayable, offline_ne_progid name]
        · simp [countPlayable, extinf_ne_progid name, hne url hls hx]

theorem countPlayable_runDelta (ei : String → Option Info)
    (hne : ∀ u s, extract_hls_url ei u = some s → s ≠ "#EXT-X-PROGRAM-ID:1")
    (input : List String) :
    ∀ seen, countPlayable (runDelta ei seen input).lines = (runDelta ei seen input).dAdded := by
  induction input with
  | nil => intro seen; rfl
  | cons raw rest ih =>
    intro seen
    simp only [runDelta, seqDelta]
    rw [countPlayable_append, countPlayable_lineDelta ei hne, ih]

/-- C3: provided the extraction oracle never returns the literal
program-identifier line as a manifest URL, the number of playable blocks
in the output (counted by their `#EXT-X-PROGRAM-ID:1` line, one per
block) equals the final `added` counter, i.e. the number of entries
whose extraction returned a manifest URL. -/
theorem C3_playable_blocks_eq_added (ei : String → Option Info) (now : String)
    (input : List String)
    (hne : ∀ u s, extract_hls_url ei u = some s → s ≠ "#EXT-X-PROGRAM-ID:1") :
    countPlayable (generate_m3u8_playlist ei now input).lines_out
      = (generate_m3u8_playlist ei now input).added := by
  rw [generate_char]
  show countPlayable ((initState now).lines_out ++ (runDelta ei [] input).lines)
      = (initState now).added + (runDelta ei [] input).dAdded
  rw [countPlayable_append, countPlayable_runDelta ei hne]
  have h0 : countPlayable (initState now).lines_out = 0 := by
    simp [initState, headerLines, countPlayable, genline_ne_progid now]
  rw [h0]
  rfl

theorem C3_playable_blocks_eq_added_witness :
    countPlayable (generate_m3u8_playlist (fun _ => some ⟨[], some "http://x.m3u8"⟩) "T"
        ["Ch | abc", "Ch2 | def"]).lines_out
      = (generate_m3u8_playlist (fun _ => some ⟨[], some "http://x.m3u8"⟩) "T"
        ["Ch | abc", "Ch2 | def"]).added :=
  C3_playable_blocks_eq_added (fun _ => some ⟨[], some "http://x.m3u8"⟩) "T"
    ["Ch | abc", "Ch2 | def"]
    (fun u s h => by
      have hu : s = "http://x.m3u8" := by
        have : extract_hls_url (fun _ => some ⟨[], some "http://x.m3u8"⟩) u
            = some "http://x.m3u8" := rfl
        rw [this] at h
        exact (Option.some.injEq _ _).mp h.symm
      rw [hu]
      decide)

/-- C6 counterexample: one entry whose extraction fails: the output is
NOT just the 3 header lines — the code appends an offline marker line
for the failed entry. -/
theorem C6_counterexample :
    (generate_m3u8_playlist (fun _ => none) "T" ["Ch A | abc"]).lines_out
        = ["#EXTM3U", "# Generated on T", "#EXT-X-VERSION:3", "#EXTINF:-1,Ch A (offline)"] ∧
    (generate_m3u8_playlist (fun _ => none) "T" ["Ch A | abc"]).lines_out
        ≠ headerLines "T" := by
  decide

theorem countFetches_append (e1 e2 : List Event) :
    countFetches (e1 ++ e2) = countFetches e1 + countFetches e2 := by
  induction e1 with
  | nil => simp [countFetches]
  | cons e t ih => simp [countFetches, ih, Nat.add_assoc]

theorem lineDelta_all_fail (ei : String → Option Info)
    (hx : ∀ u, extract_hls_url ei u = none) (seen : List String) (raw : String) :
    (lineDelta ei seen raw).dAdded = 0 ∧
    (∀ l ∈ (lineDelta ei seen raw).lines, ∃ nm, l = "#EXTINF:-1," ++ nm ++ " (offline)") ∧
    (lineDelta ei seen raw).lines.length = countFetches (lineDelta ei seen raw).events := by
  unfold lineDelta
  rcases hp : parseLine raw with _ | line | ⟨name, token⟩ <;> simp only [hp]
  · simp [countFetches]
  · simp [countFetches]
  · by_cases hs : token ∈ seen
    · simp [hs, countFetches]
    · simp only [hs, if_false]
      rcases hn : normalize_to_watch_url token with _ | url <;> simp only [hn]
      · simp [countFetches]
      · simp only [hx url]
        refine ⟨by simp, ?_, by simp [countFetches]⟩
        intro l hl
        simp only [List.mem_singleton] at hl
        exact ⟨name, hl⟩

theorem runDelta_all_fail (ei : String → Option Info)
    (hx : ∀ u, extract_hls_url ei u = none) (input : List String) :
    ∀ seen, (runDelta ei seen input).dAdded = 0 ∧
      (∀ l ∈ (runDelta ei seen input).lines, ∃ nm, l = "#EXTINF:-1," ++ nm ++ " (offline)") ∧
      (runDelta ei seen input).lines.length
        = countFetches (runDelta ei seen input).events := by
  induction input with
  | nil => intro seen; exact ⟨rfl, by simp [runDelta], rfl⟩
  | cons raw rest ih =>
    intro seen
    simp only [runDelta, seqDelta]
    refine ⟨?_, ?_, ?_⟩
    · rw [(lineDelta_all_fail ei hx seen raw).1, (ih _).1]
    · intro l hl
      rcases List.mem_append.1 hl with h | h
      · exact (lineDelta_all_fail ei hx seen raw).2.1 l h
      · exact (ih _).2.1 l h
    · rw [List.length_append, countFetches_append,
          (lineDelta_all_fail ei hx seen raw).2.2, (ih _).2.2]

/-- C6 (amended): when every extraction fails, the output file is still
written: the 3 header lines followed only by
`#EXTINF:-1,<name> (offline)` marker lines — exactly one per entry that
reached extraction (one per attempted fetch; entries skipped before
extraction contribute no line) — with no playable URL block, the run
completes, and the reported resolved count is 0. -/
theorem C6_all_extractions_fail (ei : String → Option Info) (now : String)
    (input : List String) (hx : ∀ u, extract_hls_url ei u = none) :
    (generate_m3u8_playlist ei now input).added = 0 ∧
    ∃ tail, (generate_m3u8_playlist ei now input).lines_out = headerLines now ++ tail ∧
      (∀ l ∈ tail, ∃ nm, l = "#EXTINF:-1," ++ nm ++ " (offline)") ∧
      tail.length = countFetches (generate_m3u8_playlist ei now input).events := by
  rw [generate_char]
  refine ⟨?_, ⟨(runDelta ei [] input).lines, rfl, ?_, ?_⟩⟩
  · show (initState now).added + (runDelta ei [] input).dAdded = 0
    rw [(runDelta_all_fail ei hx input []).1]
    rfl
  · exact (runDelta_all_fail ei hx input []).2.1
  · show (runDelta ei [] input).lines.length
        = countFetches ((initState now).events ++ (runDelta ei [] input).events)
    rw [(runDelta_all_fail ei hx input []).2.2]
    rfl

theorem C6_all_extractions_fail_witness :
    (generate_m3u8_playlist (fun _ => none) "T"
        ["Ch A | abc", "Name | ", "Ch B | def"]).added = 0 ∧
    ∃ tail, (generate_m3u8_playlist (fun _ => none) "T"
        ["Ch A | abc", "Name | ", "Ch B | def"]).lines_out = headerLines "T" ++ tail ∧
      (∀ l ∈ tail, ∃ nm, l = "#EXTINF:-1," ++ nm ++ " (offline)") ∧
      tail.length = countFetches (generate_m3u8_playlist (fun _ => none) "T"
        ["Ch A | abc", "Name | ", "Ch B | def"]).events :=
  C6_all_extractions_fail (fun _ => none) "T" ["Ch A | abc", "Name | ", "Ch B | def"]
    (fun _ => rfl)

theorem sorted_tbrLE_le_getLast {l : List (Nat × String)} (hs : List.Sorted tbrLE l)
    (h : l ≠ []) : ∀ p ∈ l, p.1 ≤ (l.getLast h).1 := by
  induction l with
  | nil => exact absurd rfl h
  | cons a rest ih =>
    intro p hp
    rcases List.mem_cons.1 hp with rfl | hpr
    · cases rest with
      | nil => simp [List.getLast]
      | cons b t =>
        rw [List.getLast_cons (by simp)]
        exact List.rel_of_sorted_cons hs _ (List.getLast_mem (by simp))
    · cases rest with
      | nil => simp at hpr
      | cons b t =>
        rw [List.getLast_cons (by simp)]
        exact ih hs.of_cons (by simp) p hpr

/-- C4 counterexample: an info record with a NONEMPTY per-format list in
which no format is an HLS candidate: the code still falls back to the
top-level manifest URL field, although the claim allows the fallback
only when no per-format list exists. -/
theorem C4_counterexample :
    extract_hls_url
        (fun _ => some ⟨[⟨some "https", some "http://a.mp4", some 100⟩], some "http://y.m3u8"⟩)
        "u"
      = some "http://y.m3u8" ∧
    (⟨[⟨some "https", some "http://a.mp4", some 100⟩], some "http://y.m3u8"⟩ : Info).formats
      ≠ [] ∧
    ∀ f ∈ (⟨[⟨some "https", some "http://a.mp4", some 100⟩],
            some "http://y.m3u8"⟩ : Info).formats,
      f.url ≠ some "http://y.m3u8" := by
  decide

/-- C4 (amended): among the formats whose protocol or URL indicates HLS
(the candidate list), `extract_hls_url` returns a URL of maximal
bitrate; when NO candidate exists — even if the per-format list itself
is nonempty — it falls back to the record's single exposed manifest URL
field when that contains `".m3u8"`, and returns `none` otherwise. -/
theorem C4_hls_selection (ei : String → Option Info) (url : String) (info : Info)
    (hi : ei url = some info) :
    (hls_candidates info.formats = [] →
        extract_hls_url ei url
          = (match info.url with
             | some fb => if pyContains fb ".m3u8" then some fb else none
             | none => none)) ∧
    (hls_candidates info.formats ≠ [] →
        ∃ t u, extract_hls_url ei url = some u ∧ (t, u) ∈ hls_candidates info.formats ∧
          ∀ p ∈ hls_candidates info.formats, p.1 ≤ t) := by
  constructor
  · intro h0
    simp only [extract_hls_url, hi, h0]
    rfl
  · intro h0
    simp only [extract_hls_url, hi]
    have hLne : List.insertionSort tbrLE (hls_candidates info.formats) ≠ [] := by
      intro hnil
      apply h0
      have hperm := List.perm_insertionSort tbrLE (hls_candidates info.formats)
      rw [hnil] at hperm
      exact (hperm.symm).eq_nil
    rw [List.getLast?_eq_getLast_of_ne_nil hLne]
    refine ⟨((List.insertionSort tbrLE (hls_candidates info.formats)).getLast hLne).1,
            ((List.insertionSort tbrLE (hls_candidates info.formats)).getLast hLne).2,
            rfl, ?_, ?_⟩
    · have hm := List.getLast_mem hLne
      rw [List.mem_insertionSort] at hm
      exact hm
    · intro p hp
      have hpL : p ∈ List.insertionSort tbrLE (hls_candidates info.formats) := by
        rw [List.mem_insertionSort]
        exact hp
      exact sorted_tbrLE_le_getLast
        (List.sorted_insertionSort tbrLE (hls_candidates info.formats)) hLne p hpL

theorem C4_hls_selection_witness :
    (extract_hls_url (fun _ => some ⟨[], some "http://f.m3u8"⟩) "u"
        = (match (⟨[], some "http://f.m3u8"⟩ : Info).url with
           | some fb => if pyContains fb ".m3u8" then some fb else none
           | none => none)) ∧
    ∃ t u,
      extract_hls_url
          (fun _ => some ⟨[⟨some "m3u8", some "http://lo.m3u8", some 3⟩,
                           ⟨some "m3u8", some "http://hi.m3u8", some 9⟩], none⟩) "u"
        = some u ∧
      (t, u) ∈ hls_candidates [⟨some "m3u8", some "http://lo.m3u8", some 3⟩,
                               ⟨some "m3u8", some "http://hi.m3u8", some 9⟩] ∧
      ∀ p ∈ hls_candidates [⟨some "m3u8", some "http://lo.m3u8", some 3⟩,
                            ⟨some "m3u8", some "http://hi.m3u8", some 9⟩], p.1 ≤ t :=
  ⟨(C4_hls_selection (fun _ => some ⟨[], some "http://f.m3u8"⟩) "u"
      ⟨[], some "http://f.m3u8"⟩ rfl).1 (by decide),
   (C4_hls_selection
      (fun _ => some ⟨[⟨some "m3u8", some "http://lo.m3u8", some 3⟩,
                       ⟨some "m3u8", some "http://hi.m3u8", some 9⟩], none⟩) "u"
      ⟨[⟨some "m3u8", some "http://lo.m3u8", some 3⟩,
        ⟨some "m3u8", some "http://hi.m3u8", some 9⟩], none⟩ rfl).2 (by decide)⟩

/-- C5 counterexample: `"ftp://..."` begins with a URI scheme but is not
passed through unchanged — the code only recognises `http://` and
`https://` and treats every other token as a bare video id. -/
theorem C5_counterexample :
    normalize_to_watch_url "ftp://live.example.com/s"
        = some "https://www.youtube.com/watch?v=ftp://live.example.com/s" ∧
    normalize_to_watch_url "ftp://live.example.com/s" ≠ some "ftp://live.example.com/s" := by
  decide

/-- C5 (amended): the Normalizer contract with the pass-through case
narrowed to the two schemes the code actually tests: an empty/whitespace
token is `Invalid` (`none`); a stripped token starting with `@` yields
the channel live-page URL; a stripped token starting with `http://` or
`https://` is returned unchanged (after stripping); every other
non-empty token — including one with a different URI scheme — yields the
canonical watch-page URL. -/
theorem C5_normalizer_contract (token : String) :
    ((pyStrip token).data = [] → normalize_to_watch_url token = none) ∧
    ∀ c cs, (pyStrip token).data = c :: cs →
      ((c = '@' → normalize_to_watch_url token
          = some ("https://www.youtube.com/" ++ pyStrip token ++ "/live")) ∧
       (pyStartsWith (pyStrip token) "http://" = true ∨
           pyStartsWith (pyStrip token) "https://" = true →
          normalize_to_watch_url token = some (pyStrip token)) ∧
       (c ≠ '@' → pyStartsWith (pyStrip token) "http://" = false →
          pyStartsWith (pyStrip token) "https://" = false →
          normalize_to_watch_url token
            = some ("https://www.youtube.com/watch?v=" ++ pyStrip token))) := by
  constructor
  · intro h0
    unfold normalize_to_watch_url
    simp [h0]
  · intro c cs hdata
    have hne : (pyStrip token).data.isEmpty = false := by
      rw [hdata]
      rfl
    refine ⟨?_, ?_, ?_⟩
    · intro hc
      have hat : pyStartsWith (pyStrip token) "@" = true := by
        rw [pyStartsWith, hdata, hc]
        simp [startsWithL]
      unfold normalize_to_watch_url
      simp [hne, hat]
    · intro hsch
      have hc : c ≠ '@' := by
        rcases hsch with h | h <;>
          · rw [pyStartsWith, hdata] at h
            simp [startsWithL] at h
            rw [h.1]
            decide
      have hat : pyStartsWith (pyStrip token) "@" = false := by
        rw [pyStartsWith, hdata]
        simp [startsWithL, hc]
      unfold normalize_to_watch_url
      rcases hsch with h | h <;> simp [hne, hat, h]
    · intro hc h1 h2
      have hat : pyStartsWith (pyStrip token) "@" = false := by
        rw [pyStartsWith, hdata]
        simp [startsWithL, hc]
      unfold normalize_to_watch_url
      simp [hne, hat, h1, h2]

theorem C5_normalizer_contract_witness :
    normalize_to_watch_url "   " = none ∧
    normalize_to_watch_url "@handle" = some "https://www.youtube.com/@handle/live" ∧
    normalize_to_watch_url "https://youtu.be/x" = some "https://youtu.be/x" ∧
    normalize_to_watch_url "abc123" = some "https://www.youtube.com/watch?v=abc123" := by
  refine ⟨(C5_normalizer_contract "   ").1 (by decide), ?_, ?_, ?_⟩
  · have h := ((C5_normalizer_contract "@handle").2 '@' ['h', 'a', 'n', 'd', 'l', 'e']
      (by decide)).1 rfl
    rw [h]
    decide
  · have h := (((C5_normalizer_contract "https://youtu.be/x").2 'h'
      "ttps://youtu.be/x".data (by decide)).2).1 (Or.inr (by decide))
    rw [h]
    decide
  · have h := ((((C5_normalizer_contract "abc123").2 'a' ['b', 'c', '1', '2', '3']
      (by decide)).2).2) (by decide) (by decide) (by decide)
    rw [h]
    decide
